import Mathlib

/-!
Shallow embedding of the TAXism backend's calculation and validation layer
(src/main.py and src/schemas.py): straight-line depreciation, tax-loss
harvest scanning, write-off flag detection, memo templating, and the
pydantic field validation the request/response models perform.

Monetary values are modelled as rationals; Python's `round(x, 2)` is
modelled as round-half-to-even at two decimal places on exact rationals.
-/

namespace Taxism

/-- Round-half-to-even of a rational to the nearest integer, as Python's
builtin `round` behaves on exact values: values below the midpoint round
down, above round up, and an exact half rounds to the even neighbour. -/
def rnd (x : ℚ) : ℤ :=
  if x - ⌊x⌋ < 1/2 then ⌊x⌋
  else if 1/2 < x - ⌊x⌋ then ⌊x⌋ + 1
  else if ⌊x⌋ % 2 = 0 then ⌊x⌋ else ⌊x⌋ + 1

/-- Python's `round(x, 2)`: round to two decimal places. -/
def round2 (x : ℚ) : ℚ := (rnd (100 * x) : ℚ) / 100

/-- A pydantic validation failure, naming the offending field and the
violated constraint. -/
structure ValidationError where
  field : String
  constraint : String
deriving DecidableEq, Repr

/-- Request model `DepreciationInput` (main.py lines 28-32). The date is
kept as an opaque string; its value never influences the calculation. -/
structure DepreciationInput where
  asset_name : String
  cost_basis : ℚ
  placed_in_service : String
  life_years : ℤ
deriving DecidableEq, Repr

/-- One `{year, amount}` entry of a depreciation schedule. -/
structure ScheduleEntry where
  year : ℤ
  amount : ℚ
deriving DecidableEq, Repr

/-- Response model `DepreciationRecord` (schemas.py lines 39-46). -/
structure DepreciationRecord where
  asset_name : String
  cost_basis : ℚ
  placed_in_service : String
  method : String
  life_years : ℤ
  schedule : List ScheduleEntry
deriving DecidableEq, Repr

/-- Pydantic validation of `DepreciationInput`: `cost_basis` carries
`ge=0` and `life_years` carries `ge=1, le=40` (main.py lines 28-32). -/
def validate_depreciation_input (asset_name : String) (cost_basis : ℚ)
    (placed_in_service : String) (life_years : ℤ) :
    Except ValidationError DepreciationInput :=
  if cost_basis < 0 then .error ⟨"cost_basis", "ge=0"⟩
  else if life_years < 1 then .error ⟨"life_years", "ge=1"⟩
  else if 40 < life_years then .error ⟨"life_years", "le=40"⟩
  else .ok ⟨asset_name, cost_basis, placed_in_service, life_years⟩

/-- `calculate_depreciation` (main.py lines 114-135): straight-line
schedule with `annual = round(cost_basis / life_years, 2)` and one entry
per year from 1 to `life_years`. -/
def calculate_depreciation (payload : DepreciationInput) : DepreciationRecord :=
  let annual := round2 (payload.cost_basis / (payload.life_years : ℚ))
  let schedule := (List.range payload.life_years.toNat).map
    (fun year => { year := (year : ℤ) + 1, amount := annual })
  { asset_name := payload.asset_name
    cost_basis := payload.cost_basis
    placed_in_service := payload.placed_in_service
    method := "SL"
    life_years := payload.life_years
    schedule := schedule }

lemma rnd_dist (x : ℚ) : |(rnd x : ℚ) - x| ≤ 1/2 := by
  have h0 : (⌊x⌋ : ℚ) ≤ x := Int.floor_le x
  have h1 : x < ⌊x⌋ + 1 := Int.lt_floor_add_one x
  unfold rnd
  split_ifs with ha hb hc
  · rw [abs_le]; constructor <;> [linarith; linarith]
  · push_cast
    rw [abs_le]; constructor <;> [linarith; linarith]
  · have hx : x - ⌊x⌋ = 1/2 := le_antisymm (not_lt.mp hb) (not_lt.mp ha)
    rw [abs_le]; constructor <;> [linarith; linarith]
  · have hx : x - ⌊x⌋ = 1/2 := le_antisymm (not_lt.mp hb) (not_lt.mp ha)
    push_cast
    rw [abs_le]; constructor <;> [linarith; linarith]

lemma round2_dist (x : ℚ) : |round2 x - x| ≤ 1/200 := by
  have h := rnd_dist (100 * x)
  have hx : round2 x - x = ((rnd (100 * x) : ℚ) - 100 * x) / 100 := by
    unfold round2; ring
  rw [hx, abs_div]
  have h100 : |(100 : ℚ)| = 100 := by norm_num
  rw [h100]
  linarith

lemma round2_zero : round2 0 = 0 := by
  unfold round2 rnd
  norm_num

/-- One position of a harvest-scan request: a loosely typed dict whose
fields may all be absent (main.py line 149). -/
structure Position where
  symbol : Option String
  cost_basis : Option ℚ
  current_price : Option ℚ
  quantity : Option ℚ
deriving DecidableEq, Repr

/-- One harvest candidate emitted by the scanner (main.py lines 162-168). -/
structure Candidate where
  symbol : Option String
  unrealized : ℚ
  note : String
deriving DecidableEq, Repr

/-- Request model `HarvestInput` (main.py lines 147-150). Its `threshold`
field carries no pydantic constraint. -/
structure HarvestInput where
  portfolio_name : String
  positions : List Position
  threshold : ℚ
deriving DecidableEq, Repr

/-- Response model `HarvestPlan` (schemas.py lines 49-54). -/
structure HarvestPlan where
  portfolio_name : String
  threshold : ℚ
  positions_reviewed : ℤ
  candidates : List Candidate
deriving DecidableEq, Repr

/-- The fixed advisory note attached to every candidate (main.py line 166). -/
def harvest_note : String :=
  "Loss exceeds threshold. Confirm wash sale windows before execution."

/-- The per-position unrealized gain/loss (main.py lines 157-160):
missing numeric fields default to 0 via `p.get(key, 0)`. -/
def harvest_unrealized (p : Position) : ℚ :=
  round2 ((p.current_price.getD 0 - p.cost_basis.getD 0) * p.quantity.getD 0)

/-- The candidate record built for a qualifying position. -/
def harvest_candidate (p : Position) : Candidate :=
  { symbol := p.symbol, unrealized := harvest_unrealized p, note := harvest_note }

/-- The candidate-accumulating loop of `scan_tax_loss_harvest`
(main.py lines 155-168). -/
def harvest_loop (threshold : ℚ) : List Position → List Candidate → List Candidate
  | [], acc => acc
  | p :: rest, acc =>
      harvest_loop threshold rest
        (if harvest_unrealized p < -|threshold| then acc ++ [harvest_candidate p] else acc)

/-- Pydantic validation of the `HarvestPlan` response model at
construction: `threshold` carries `ge=0` and `positions_reviewed` carries
`ge=0` (schemas.py lines 52-53). -/
def validate_harvest_plan (portfolio_name : String) (threshold : ℚ)
    (positions_reviewed : ℤ) (candidates : List Candidate) :
    Except ValidationError HarvestPlan :=
  if threshold < 0 then .error ⟨"threshold", "ge=0"⟩
  else if positions_reviewed < 0 then .error ⟨"positions_reviewed", "ge=0"⟩
  else .ok ⟨portfolio_name, threshold, positions_reviewed, candidates⟩

/-- `scan_tax_loss_harvest` (main.py lines 153-176): filter positions by
`unrealized < -abs(threshold)`, then construct the validated HarvestPlan. -/
def scan_tax_loss_harvest (payload : HarvestInput) : Except ValidationError HarvestPlan :=
  let candidates := harvest_loop payload.threshold payload.positions []
  validate_harvest_plan payload.portfolio_name payload.threshold
    (payload.positions.length : ℤ) candidates

/-- Request model `MemoInput` (main.py lines 179-181): two plain string
fields, so pydantic only requires them to be present. -/
structure MemoInput where
  title : String
  position_summary : String
deriving DecidableEq, Repr

/-- Response model `Memo` (schemas.py lines 31-36). -/
structure Memo where
  title : String
  position_summary : String
  citations : List String
  memo_text : String
deriving DecidableEq, Repr

/-- The memo body template of `generate_defense_memo`
(main.py lines 187-195). -/
def memo_template (title position_summary : String) : String :=
  "Position: " ++ title ++ "\n\n" ++
  "Summary: " ++ position_summary ++ "\n\n" ++
  "Rationale: This position is taken based on commonly accepted interpretations " ++
  "of applicable tax rules and administrative guidance. The taxpayer has a good-" ++
  "faith basis and has maintained contemporaneous records.\n\n" ++
  "Citations: [Add statute/reg cite placeholders here].\n\n" ++
  "Disclosure: Where required, the position will be properly disclosed to the tax authority."

/-- `generate_defense_memo` (main.py lines 184-202). -/
def generate_defense_memo (payload : MemoInput) : Memo :=
  { title := payload.title
    position_summary := payload.position_summary
    citations := []
    memo_text := memo_template payload.title payload.position_summary }

/-- A raw memo request before pydantic parsing: either field may be
absent from the request body. -/
structure RawMemoRequest where
  title : Option String
  position_summary : Option String
deriving DecidableEq, Repr

/-- Pydantic parsing of `MemoInput`: both fields are required (no
default), but any string value — including the empty string — passes. -/
def parse_memo_input (r : RawMemoRequest) : Except ValidationError MemoInput :=
  match r.title with
  | none => .error ⟨"title", "missing"⟩
  | some t =>
    match r.position_summary with
    | none => .error ⟨"position_summary", "missing"⟩
    | some s => .ok ⟨t, s⟩

/-- The memo endpoint: parse the request, then generate the memo. -/
def memo_endpoint (r : RawMemoRequest) : Except ValidationError Memo :=
  (parse_memo_input r).map generate_defense_memo

/-- Request model `ExpenseInput` (main.py lines 206-208). -/
structure ExpenseInput where
  category : String
  amount : ℚ
deriving DecidableEq, Repr

/-- One write-off flag `{category, hint}` (main.py line 218). -/
structure WriteoffFlag where
  category : String
  hint : String
deriving DecidableEq, Repr

/-- The `{total_reviewed, flags}` response of the write-off endpoint
(main.py line 219). -/
structure WriteoffResult where
  total_reviewed : ℚ
  flags : List WriteoffFlag
deriving DecidableEq, Repr

/-- The fixed category set of `writeoff_flags` (main.py line 217). -/
def writeoff_categories : List String := ["home office", "r&d", "depreciation", "mileage"]

/-- The fixed hint attached to every flag (main.py line 218). -/
def writeoff_hint : String := "Potential deduction – ensure substantiation."

/-- The accumulating loop of `writeoff_flags` (main.py lines 213-218):
one pass summing amounts and collecting flags. -/
def writeoff_loop : List ExpenseInput → ℚ → List WriteoffFlag → ℚ × List WriteoffFlag
  | [], total, flags => (total, flags)
  | e :: rest, total, flags =>
      writeoff_loop rest (total + e.amount)
        (if e.category.toLower ∈ writeoff_categories
         then flags ++ [⟨e.category, writeoff_hint⟩] else flags)

/-- `writeoff_flags` (main.py lines 211-219). -/
def writeoff_flags (expenses : List ExpenseInput) : WriteoffResult :=
  let r := writeoff_loop expenses 0 []
  { total_reviewed := round2 r.1, flags := r.2 }

lemma harvest_loop_eq (T : ℚ) (ps : List Position) (acc : List Candidate) :
    harvest_loop T ps acc
      = acc ++ (ps.filter (fun p => harvest_unrealized p < -|T|)).map harvest_candidate := by
  induction ps generalizing acc with
  | nil => simp [harvest_loop]
  | cons p rest ih =>
      by_cases h : harvest_unrealized p < -|T|
      · simp [harvest_loop, if_pos h, ih, List.filter_cons, h]
      · simp [harvest_loop, if_neg h, ih, List.filter_cons, h]

lemma scan_ok (payload : HarvestInput) (h : 0 ≤ payload.threshold) :
    scan_tax_loss_harvest payload = Except.ok
      { portfolio_name := payload.portfolio_name
        threshold := payload.threshold
        positions_reviewed := (payload.positions.length : ℤ)
        candidates := (payload.positions.filter
          (fun p => harvest_unrealized p < -|payload.threshold|)).map harvest_candidate } := by
  have hnl : ¬ payload.threshold < 0 := not_lt.mpr h
  have hlen : ¬ ((payload.positions.length : ℤ) < 0) := by
    simp [Int.natCast_nonneg]
  simp [scan_tax_loss_harvest, validate_harvest_plan, harvest_loop_eq, hnl, hlen]

lemma writeoff_loop_fst (es : List ExpenseInput) (t : ℚ) (fs : List WriteoffFlag) :
    (writeoff_loop es t fs).1 = t + (es.map ExpenseInput.amount).sum := by
  induction es generalizing t fs with
  | nil => simp [writeoff_loop]
  | cons e rest ih => simp [writeoff_loop, ih]; ring

lemma writeoff_loop_snd (es : List ExpenseInput) (t : ℚ) (fs : List WriteoffFlag) :
    (writeoff_loop es t fs).2
      = fs ++ (es.filter (fun e => e.category.toLower ∈ writeoff_categories)).map
          (fun e => { category := e.category, hint := writeoff_hint }) := by
  induction es generalizing t fs with
  | nil => simp [writeoff_loop]
  | cons e rest ih =>
      by_cases h : e.category.toLower ∈ writeoff_categories
      · simp [writeoff_loop, if_pos h, ih, List.filter_cons, h]
      · simp [writeoff_loop, if_neg h, ih, List.filter_cons, h]

lemma depreciation_amounts (a d : String) (C : ℚ) (L : ℤ) :
    ((calculate_depreciation ⟨a, C, d, L⟩).schedule.map ScheduleEntry.amount)
      = List.replicate L.toNat (round2 (C / (L : ℚ))) := by
  show ((List.range L.toNat).map _).map _ = _
  rw [List.map_map]
  show (List.range L.toNat).map (fun _ => round2 (C / (L : ℚ))) = _
  rw [List.map_const', List.length_range]

/-- C1: for every cost_basis C ≥ 0 and life_years L with 1 ≤ L ≤ 40, the
depreciation calculator returns a record whose schedule has exactly L
entries, whose i-th entry carries year i+1 (so years run 1..L in
increasing order) and amount round(C/L, 2), and whose method is "SL". -/
theorem depreciation_schedule_spec (a d : String) (C : ℚ) (L : ℤ)
    (hC : 0 ≤ C) (hL1 : 1 ≤ L) (hL2 : L ≤ 40) :
    ((calculate_depreciation ⟨a, C, d, L⟩).schedule.length : ℤ) = L
    ∧ (∀ i, (hi : i < (calculate_depreciation ⟨a, C, d, L⟩).schedule.length) →
        ((calculate_depreciation ⟨a, C, d, L⟩).schedule[i]).year = (i : ℤ) + 1
        ∧ ((calculate_depreciation ⟨a, C, d, L⟩).schedule[i]).amount
            = round2 (C / (L : ℚ)))
    ∧ (calculate_depreciation ⟨a, C, d, L⟩).method = "SL" := by
  have hL0 : (0 : ℤ) ≤ L := by linarith
  refine ⟨?_, ?_, rfl⟩
  · simp [calculate_depreciation, Int.toNat_of_nonneg hL0]
  · intro i hi
    have hi' : i < L.toNat := by
      simpa [calculate_depreciation] using hi
    constructor
    · simp [calculate_depreciation]
    · simp [calculate_depreciation]

/-- Witness for C1 at the spec's example: cost_basis 12000, life_years 5
yields 5 entries of 2400.00 each, method "SL". -/
theorem depreciation_schedule_spec_witness :
    ((0 : ℚ) ≤ 12000 ∧ (1 : ℤ) ≤ 5 ∧ (5 : ℤ) ≤ 40)
    ∧ ((calculate_depreciation ⟨"truck", 12000, "2024-01-01", 5⟩).schedule.length : ℤ) = 5
    ∧ (calculate_depreciation ⟨"truck", 12000, "2024-01-01", 5⟩).method = "SL"
    ∧ (calculate_depreciation ⟨"truck", 12000, "2024-01-01", 5⟩).schedule
        = [⟨1, 2400⟩, ⟨2, 2400⟩, ⟨3, 2400⟩, ⟨4, 2400⟩, ⟨5, 2400⟩] :=
  ⟨⟨by norm_num, by norm_num, by norm_num⟩,
   (depreciation_schedule_spec "truck" "2024-01-01" 12000 5 (by norm_num)
      (by norm_num) (by norm_num)).1,
   (depreciation_schedule_spec "truck" "2024-01-01" 12000 5 (by norm_num)
      (by norm_num) (by norm_num)).2.2,
   by
    norm_num [calculate_depreciation, round2, rnd]
    show List.map _ (List.range 5) = _
    simp [List.range_succ]⟩

/-- C7: the schedule amounts sum to L·round(C/L, 2); that sum differs from
cost_basis by at most L half-cents (L · 0.005 = L/200); and when C = 0
every entry is 0 and the sum is exactly 0. -/
theorem depreciation_sum_within_rounding (a d : String) (C : ℚ) (L : ℤ)
    (hC : 0 ≤ C) (hL1 : 1 ≤ L) (hL2 : L ≤ 40) :
    ((calculate_depreciation ⟨a, C, d, L⟩).schedule.map ScheduleEntry.amount).sum
        = (L : ℚ) * round2 (C / (L : ℚ))
    ∧ |(L : ℚ) * round2 (C / (L : ℚ)) - C| ≤ (L : ℚ) * (1/200)
    ∧ (C = 0 →
        (∀ e ∈ (calculate_depreciation ⟨a, C, d, L⟩).schedule, e.amount = 0)
        ∧ ((calculate_depreciation ⟨a, C, d, L⟩).schedule.map ScheduleEntry.amount).sum = 0) := by
  have hL0 : (0 : ℤ) ≤ L := by linarith
  have hLpos : (0 : ℚ) < (L : ℚ) := by exact_mod_cast lt_of_lt_of_le one_pos hL1
  have hcast : ((L.toNat : ℕ) : ℚ) = (L : ℚ) := by
    exact_mod_cast congrArg (fun z : ℤ => (z : ℚ)) (Int.toNat_of_nonneg hL0)
  have hsum : ((calculate_depreciation ⟨a, C, d, L⟩).schedule.map ScheduleEntry.amount).sum
      = (L : ℚ) * round2 (C / (L : ℚ)) := by
    rw [depreciation_amounts, List.sum_replicate, nsmul_eq_mul, hcast]
  refine ⟨hsum, ?_, ?_⟩
  · have hc : (L : ℚ) * (C / (L : ℚ)) = C := by
      field_simp
    have key : (L : ℚ) * round2 (C / (L : ℚ)) - C
        = (L : ℚ) * (round2 (C / (L : ℚ)) - C / (L : ℚ)) := by
      rw [mul_sub, hc]
    rw [key, abs_mul, abs_of_pos hLpos]
    exact mul_le_mul_of_nonneg_left (round2_dist _) (le_of_lt hLpos)
  · intro h0
    subst h0
    have hz : round2 ((0 : ℚ) / (L : ℚ)) = 0 := by rw [zero_div, round2_zero]
    constructor
    · intro e he
      simp [calculate_depreciation] at he
      obtain ⟨y, hy, rfl⟩ := he
      simpa using hz
    · rw [hsum, hz, mul_zero]

/-- Witness for C7 at cost_basis 12000, life_years 5: the schedule sums
to 12000 exactly, within the stated bound. -/
theorem depreciation_sum_within_rounding_witness :
    ((0 : ℚ) ≤ 12000 ∧ (1 : ℤ) ≤ 5 ∧ (5 : ℤ) ≤ 40)
    ∧ ((calculate_depreciation ⟨"truck", 12000, "2024-01-01", 5⟩).schedule.map
        ScheduleEntry.amount).sum = ((5 : ℤ) : ℚ) * round2 (12000 / ((5 : ℤ) : ℚ))
    ∧ |((5 : ℤ) : ℚ) * round2 (12000 / ((5 : ℤ) : ℚ)) - 12000| ≤ ((5 : ℤ) : ℚ) * (1/200) :=
  ⟨⟨by norm_num, by norm_num, by norm_num⟩,
   (depreciation_sum_within_rounding "truck" "2024-01-01" 12000 5 (by norm_num)
      (by norm_num) (by norm_num)).1,
   (depreciation_sum_within_rounding "truck" "2024-01-01" 12000 5 (by norm_num)
      (by norm_num) (by norm_num)).2.1⟩

/-- C2 counterexample: with threshold 500 and a position whose raw
unrealized loss is −500.004, the raw product is below −T, yet the scanner
compares the rounded value −500.00 and emits no candidate. The claim's
unrounded membership criterion is therefore false on the code. -/
theorem harvest_unrounded_criterion_fails :
    scan_tax_loss_harvest
        ⟨"pf", [⟨some "XYZ", some (125001/250), some 0, some 1⟩], 500⟩
      = Except.ok ⟨"pf", 500, 1, []⟩
    ∧ (((0 : ℚ) - 125001/250) * 1 < -(500 : ℚ))
    ∧ harvest_unrealized ⟨some "XYZ", some (125001/250), some 0, some 1⟩ = -500 := by
  refine ⟨?_, by norm_num, ?_⟩
  · rw [scan_ok _ (by norm_num)]
    have hu : harvest_unrealized ⟨some "XYZ", some (125001/250), some 0, some 1⟩ = -500 := by
      norm_num [harvest_unrealized, round2, rnd]
    simp [List.filter_cons, hu]
  · norm_num [harvest_unrealized, round2, rnd]

/-- C2 (amended): for threshold T ≥ 0, a position of P appears in the
candidates list iff its rounded unrealized loss
round((current_price − cost_basis) × quantity, 2) is < −T, and
positions_reviewed equals the length of P. -/
theorem harvest_candidate_membership (n : String) (P : List Position) (T : ℚ)
    (h : 0 ≤ T) :
    ∃ plan, scan_tax_loss_harvest ⟨n, P, T⟩ = Except.ok plan
      ∧ (∀ p ∈ P, (harvest_candidate p ∈ plan.candidates ↔ harvest_unrealized p < -T))
      ∧ plan.positions_reviewed = (P.length : ℤ) := by
  refine ⟨_, scan_ok ⟨n, P, T⟩ h, ?_, rfl⟩
  intro p hp
  have habs : |T| = T := abs_of_nonneg h
  constructor
  · intro hmem
    rw [List.mem_map] at hmem
    obtain ⟨q, hq, heq⟩ := hmem
    rw [List.mem_filter] at hq
    have huq : harvest_unrealized q < -|T| := by
      simpa using hq.2
    have hEq : harvest_unrealized q = harvest_unrealized p :=
      congrArg Candidate.unrealized heq
    rw [habs] at huq
    rw [hEq] at huq
    exact huq
  · intro hlt
    rw [List.mem_map]
    exact ⟨p, List.mem_filter.mpr ⟨hp, by simpa [habs] using hlt⟩, rfl⟩

/-- Witness for C2 (amended) at a concrete portfolio: position with cost
basis 100, price 40, quantity 10 (loss 600) is a candidate at threshold
500; a break-even position is not. -/
theorem harvest_candidate_membership_witness :
    (0 : ℚ) ≤ 500
    ∧ (∃ plan,
        scan_tax_loss_harvest
            ⟨"pf", [⟨some "AAA", some 100, some 40, some 10⟩,
                    ⟨some "BBB", some 50, some 50, some 10⟩], 500⟩
          = Except.ok plan
        ∧ (∀ p ∈ [(⟨some "AAA", some 100, some 40, some 10⟩ : Position),
                  ⟨some "BBB", some 50, some 50, some 10⟩],
            (harvest_candidate p ∈ plan.candidates ↔ harvest_unrealized p < -(500 : ℚ)))
        ∧ plan.positions_reviewed
            = (([(⟨some "AAA", some 100, some 40, some 10⟩ : Position),
                 ⟨some "BBB", some 50, some 50, some 10⟩] : List Position).length : ℤ)) :=
  ⟨by norm_num,
   harvest_candidate_membership "pf"
     [⟨some "AAA", some 100, some 40, some 10⟩, ⟨some "BBB", some 50, some 50, some 10⟩]
     500 (by norm_num)⟩

/-- C8: every plan the scanner produces reviews exactly the input
positions, has no more candidates than positions reviewed, lists the
candidates in original input order (the filtered sublist), and annotates
each with the fixed wash-sale advisory note. -/
theorem harvest_plan_invariants (payload : HarvestInput) (h : 0 ≤ payload.threshold) :
    ∃ plan, scan_tax_loss_harvest payload = Except.ok plan
      ∧ plan.positions_reviewed = (payload.positions.length : ℤ)
      ∧ (plan.candidates.length : ℤ) ≤ plan.positions_reviewed
      ∧ plan.candidates = (payload.positions.filter
          (fun p => harvest_unrealized p < -|payload.threshold|)).map harvest_candidate
      ∧ ∀ c ∈ plan.candidates,
          c.note = "Loss exceeds threshold. Confirm wash sale windows before execution." := by
  refine ⟨_, scan_ok payload h, rfl, ?_, rfl, ?_⟩
  · simp only [List.length_map]
    exact_mod_cast List.length_filter_le _ _
  · intro c hc
    rw [List.mem_map] at hc
    obtain ⟨q, _, rfl⟩ := hc
    rfl

/-- Witness for C8 at a concrete two-position portfolio. -/
theorem harvest_plan_invariants_witness :
    (0 : ℚ) ≤ 500
    ∧ (∃ plan,
        scan_tax_loss_harvest
            ⟨"pf2", [⟨some "AAA", some 100, some 40, some 10⟩,
                     ⟨some "BBB", some 50, some 50, some 10⟩], 500⟩
          = Except.ok plan
        ∧ plan.positions_reviewed
            = (([(⟨some "AAA", some 100, some 40, some 10⟩ : Position),
                 ⟨some "BBB", some 50, some 50, some 10⟩] : List Position).length : ℤ)
        ∧ (plan.candidates.length : ℤ) ≤ plan.positions_reviewed
        ∧ plan.candidates
            = (([(⟨some "AAA", some 100, some 40, some 10⟩ : Position),
                 ⟨some "BBB", some 50, some 50, some 10⟩] : List Position).filter
                (fun p => harvest_unrealized p < -|(500 : ℚ)|)).map harvest_candidate
        ∧ ∀ c ∈ plan.candidates,
            c.note = "Loss exceeds threshold. Confirm wash sale windows before execution.") :=
  ⟨by norm_num,
   harvest_plan_invariants
     ⟨"pf2", [⟨some "AAA", some 100, some 40, some 10⟩,
              ⟨some "BBB", some 50, some 50, some 10⟩], 500⟩
     (by norm_num)⟩

/-- C9: a missing cost_basis, current_price or quantity is treated as 0
in the unrealized computation, and the scan succeeds on positions with
missing fields (it never fails for any position list once the threshold
is admissible). -/
theorem harvest_missing_fields_default_zero :
    (∀ (s : Option String) (cp q : Option ℚ),
        harvest_unrealized ⟨s, none, cp, q⟩ = harvest_unrealized ⟨s, some 0, cp, q⟩)
    ∧ (∀ (s : Option String) (cb q : Option ℚ),
        harvest_unrealized ⟨s, cb, none, q⟩ = harvest_unrealized ⟨s, cb, some 0, q⟩)
    ∧ (∀ (s : Option String) (cb cp : Option ℚ),
        harvest_unrealized ⟨s, cb, cp, none⟩ = harvest_unrealized ⟨s, cb, cp, some 0⟩)
    ∧ (∀ payload : HarvestInput, 0 ≤ payload.threshold →
        (scan_tax_loss_harvest payload).isOk = true) := by
  refine ⟨fun s cp q => rfl, fun s cb q => rfl, fun s cb cp => rfl, fun payload h => ?_⟩
  rw [scan_ok payload h]
  rfl

/-- Witness for C9: a scan whose positions have every combination of
missing numeric fields succeeds. -/
theorem harvest_missing_fields_default_zero_witness :
    harvest_unrealized ⟨none, none, some 40, some 10⟩
        = harvest_unrealized ⟨none, some 0, some 40, some 10⟩
    ∧ (0 : ℚ) ≤ 500
    ∧ (scan_tax_loss_harvest
        ⟨"pf3", [⟨none, none, none, none⟩, ⟨some "AAA", some 100, none, some 10⟩,
                 ⟨some "BBB", some 50, some 50, none⟩], 500⟩).isOk = true :=
  ⟨harvest_missing_fields_default_zero.1 none (some 40) (some 10),
   by norm_num,
   harvest_missing_fields_default_zero.2.2.2
     ⟨"pf3", [⟨none, none, none, none⟩, ⟨some "AAA", some 100, none, some 10⟩,
              ⟨some "BBB", some 50, some 50, none⟩], 500⟩
     (by norm_num)⟩

/-- C10: a qualifying position with no symbol field is still emitted as a
candidate whose symbol is None, not dropped. -/
theorem harvest_missing_symbol_kept (payload : HarvestInput) (h : 0 ≤ payload.threshold)
    (p : Position) (hp : p ∈ payload.positions) (hsym : p.symbol = none)
    (hloss : harvest_unrealized p < -|payload.threshold|) :
    ∃ plan, scan_tax_loss_harvest payload = Except.ok plan
      ∧ ({ symbol := none, unrealized := harvest_unrealized p,
           note := harvest_note } : Candidate) ∈ plan.candidates := by
  refine ⟨_, scan_ok payload h, ?_⟩
  rw [List.mem_map]
  refine ⟨p, List.mem_filter.mpr ⟨hp, by simpa using hloss⟩, ?_⟩
  simp [harvest_candidate, hsym]

/-- Witness for C10: a symbol-less position with unrealized −600 at
threshold 500 appears as a candidate with symbol None. -/
theorem harvest_missing_symbol_kept_witness :
    (0 : ℚ) ≤ 500
    ∧ (⟨none, some 100, some 40, some 10⟩ : Position)
        ∈ [(⟨none, some 100, some 40, some 10⟩ : Position)]
    ∧ (⟨none, some 100, some 40, some 10⟩ : Position).symbol = none
    ∧ harvest_unrealized ⟨none, some 100, some 40, some 10⟩ < -|(500 : ℚ)|
    ∧ (∃ plan,
        scan_tax_loss_harvest ⟨"pf4", [⟨none, some 100, some 40, some 10⟩], 500⟩
          = Except.ok plan
        ∧ ({ symbol := none,
             unrealized := harvest_unrealized ⟨none, some 100, some 40, some 10⟩,
             note := harvest_note } : Candidate) ∈ plan.candidates) :=
  ⟨by norm_num, by simp, rfl,
   by norm_num [harvest_unrealized, round2, rnd],
   harvest_missing_symbol_kept
     ⟨"pf4", [⟨none, some 100, some 40, some 10⟩], 500⟩ (by norm_num)
     ⟨none, some 100, some 40, some 10⟩ (by simp) rfl
     (by norm_num [harvest_unrealized, round2, rnd])⟩

/-- C3: total_reviewed is the rounded sum of all amounts regardless of
which expenses are flagged, and the flags are exactly the expenses whose
lower-cased category lies in the fixed set, in original input order. -/
theorem writeoff_flags_spec (expenses : List ExpenseInput) :
    (writeoff_flags expenses).total_reviewed
        = round2 ((expenses.map ExpenseInput.amount).sum)
    ∧ (writeoff_flags expenses).flags
        = (expenses.filter (fun e => e.category.toLower ∈ writeoff_categories)).map
            (fun e => { category := e.category, hint := writeoff_hint }) := by
  constructor
  · show round2 (writeoff_loop expenses 0 []).1 = _
    rw [writeoff_loop_fst, zero_add]
  · show (writeoff_loop expenses 0 []).2 = _
    rw [writeoff_loop_snd, List.nil_append]

/-- C4: the memo generator is deterministic — identical (title, summary)
inputs produce identical memo_text — and the generated Memo always has an
empty citations list. -/
theorem memo_deterministic_and_citations_empty :
    (∀ p₁ p₂ : MemoInput, p₁.title = p₂.title →
        p₁.position_summary = p₂.position_summary →
        (generate_defense_memo p₁).memo_text = (generate_defense_memo p₂).memo_text)
    ∧ (∀ p : MemoInput, (generate_defense_memo p).citations = []) := by
  refine ⟨fun p₁ p₂ ht hs => ?_, fun p => rfl⟩
  show memo_template p₁.title p₁.position_summary
      = memo_template p₂.title p₂.position_summary
  rw [ht, hs]

/-- Witness for C4 at a concrete input pair. -/
theorem memo_deterministic_and_citations_empty_witness :
    (generate_defense_memo ⟨"R&D credit", "qualifies"⟩).memo_text
        = (generate_defense_memo ⟨"R&D credit", "qualifies"⟩).memo_text
    ∧ (generate_defense_memo ⟨"R&D credit", "qualifies"⟩).citations = [] :=
  ⟨memo_deterministic_and_citations_empty.1 ⟨"R&D credit", "qualifies"⟩
      ⟨"R&D credit", "qualifies"⟩ rfl rfl,
   memo_deterministic_and_citations_empty.2 ⟨"R&D credit", "qualifies"⟩⟩

/-- C5: the validation layer rejects cost_basis < 0 and life_years
outside 1..40 on the depreciation request, naming the offending field and
constraint; and a harvest scan with threshold < 0 fails with a
ValidationError on the threshold field (raised when the HarvestPlan
response model is constructed) instead of producing a plan. -/
theorem validation_rejects_out_of_range :
    (∀ (a d : String) (C : ℚ) (L : ℤ), C < 0 →
        validate_depreciation_input a C d L
          = Except.error ⟨"cost_basis", "ge=0"⟩)
    ∧ (∀ (a d : String) (C : ℚ) (L : ℤ), 0 ≤ C → (L < 1 ∨ 40 < L) →
        ∃ c, validate_depreciation_input a C d L
          = Except.error ⟨"life_years", c⟩)
    ∧ (∀ payload : HarvestInput, payload.threshold < 0 →
        scan_tax_loss_harvest payload = Except.error ⟨"threshold", "ge=0"⟩) := by
  refine ⟨fun a d C L hC => ?_, fun a d C L hC hL => ?_, fun payload ht => ?_⟩
  · simp [validate_depreciation_input, hC]
  · have hC' : ¬ C < 0 := not_lt.mpr hC
    rcases hL with hL | hL
    · exact ⟨"ge=1", by simp [validate_depreciation_input, hC', hL]⟩
    · have hL' : ¬ L < 1 := by omega
      exact ⟨"le=40", by simp [validate_depreciation_input, hC', hL', hL]⟩
  · simp [scan_tax_loss_harvest, validate_harvest_plan, ht]

/-- Witness for C5: cost_basis −1 and life_years 0 and 41 are rejected
naming their fields; a harvest scan with threshold −5 fails on the
threshold constraint. -/
theorem validation_rejects_out_of_range_witness :
    validate_depreciation_input "truck" (-1) "2024-01-01" 5
        = Except.error ⟨"cost_basis", "ge=0"⟩
    ∧ (∃ c, validate_depreciation_input "truck" 100 "2024-01-01" 0
        = Except.error ⟨"life_years", c⟩)
    ∧ (∃ c, validate_depreciation_input "truck" 100 "2024-01-01" 41
        = Except.error ⟨"life_years", c⟩)
    ∧ scan_tax_loss_harvest ⟨"pf5", [], -5⟩ = Except.error ⟨"threshold", "ge=0"⟩ :=
  ⟨validation_rejects_out_of_range.1 "truck" "2024-01-01" (-1) 5 (by norm_num),
   validation_rejects_out_of_range.2.1 "truck" "2024-01-01" 100 0 (by norm_num)
     (Or.inl (by norm_num)),
   validation_rejects_out_of_range.2.1 "truck" "2024-01-01" 100 41 (by norm_num)
     (Or.inr (by norm_num)),
   validation_rejects_out_of_range.2.2 ⟨"pf5", [], -5⟩ (by norm_num)⟩

/-- C6 counterexample: a memo request whose title is the empty string is
accepted — the endpoint returns a Memo instead of failing, so the claim
that empty strings are rejected is false on the code. -/
theorem memo_empty_title_accepted :
    memo_endpoint ⟨some "", some "summary"⟩
        = Except.ok (generate_defense_memo ⟨"", "summary"⟩)
    ∧ (memo_endpoint ⟨some "", some "summary"⟩).isOk = true :=
  ⟨rfl, rfl⟩

/-- C6 (amended): the memo generator requires title and position_summary
to be present — a request missing either field fails validation — but the
empty string is accepted: any request with both fields present, even
empty, returns a Memo. -/
theorem memo_requires_present_fields :
    (∀ t s : String,
        memo_endpoint ⟨some t, some s⟩ = Except.ok (generate_defense_memo ⟨t, s⟩))
    ∧ (∀ r : RawMemoRequest, r.title = none ∨ r.position_summary = none →
        (memo_endpoint r).isOk = false) := by
  refine ⟨fun t s => rfl, fun r hr => ?_⟩
  rcases hr with hr | hr
  · rw [show r = ⟨none, r.position_summary⟩ from by cases r; cases hr; rfl]
    rfl
  · cases r with
    | mk rt rs =>
      cases hr
      cases rt <;> rfl

/-- Witness for C6 (amended): both empty-string acceptance and
missing-field rejection at concrete requests. -/
theorem memo_requires_present_fields_witness :
    memo_endpoint ⟨some "", some ""⟩ = Except.ok (generate_defense_memo ⟨"", ""⟩)
    ∧ ((⟨none, some "s"⟩ : RawMemoRequest).title = none
        ∨ (⟨none, some "s"⟩ : RawMemoRequest).position_summary = none)
    ∧ (memo_endpoint ⟨none, some "s"⟩).isOk = false :=
  ⟨memo_requires_present_fields.1 "" "",
   Or.inl rfl,
   memo_requires_present_fields.2 ⟨none, some "s"⟩ (Or.inl rfl)⟩

end Taxism
